import Mathlib

/-!
Shallow embedding of the repo-pilot scoring core (src/api/index.py and
src/api/ml_model.py).  Python floats are modelled as exact rationals (ℚ);
the only non-rational float operation in the source, `variance ** 0.5`,
is modelled by an abstract square-root parameter `rt : ℚ → ℚ` (float sqrt
maps positive inputs to positive outputs, which is the only property the
code relies on).  Python exceptions are modelled by the `PyErr` error type,
and the process-wide mutable dict `models` by an explicit association-list
registry threaded through the functions.
-/

namespace RepoPilot

/-- Python exception kinds relevant to this core.  `indexError` models a
built-in IndexError (e.g. `X[0]` on an empty list), `trainingFailure` models
an unexpected exception escaping a fit call (the spec's TrainingFailure),
and `invalidInput` models the spec's InvalidInput taxonomy entry (no such
error type exists anywhere in the source code). -/
inductive PyErr where
  | indexError : PyErr
  | trainingFailure : PyErr
  | invalidInput : PyErr

/-- Python `int(q)` on an exact rational value: truncation toward zero,
computed as the truncating division of numerator by denominator. -/
def pyInt (q : ℚ) : ℤ := Int.tdiv q.num (q.den : ℤ)

/-- Truncation toward zero, re-embedded into ℚ (Python stores the result of
`int(...)` in a numeric field that later mixes with floats). -/
def pyIntQ (q : ℚ) : ℚ := (pyInt q : ℤ)

/-- Whether the character list `pre` is a leading segment of `l`. -/
def listStartsWith : List Char → List Char → Bool
  | [], _ => true
  | _ :: _, [] => false
  | a :: as, b :: bs => a == b && listStartsWith as bs

/-- Python `needle in hay` on strings: substring containment. -/
def containsSubstring (needle hay : String) : Bool :=
  go needle.data hay.data
where
  /-- Check the needle at every start position of the haystack. -/
  go (n : List Char) : List Char → Bool
    | [] => listStartsWith n []
    | c :: rest => listStartsWith n (c :: rest) || go n rest

/-- Python `s.endswith(suf)`. -/
def endsWithStr (s suf : String) : Bool :=
  listStartsWith suf.data.reverse s.data.reverse

/-- Python `s.lower()` (ASCII case folding, which is all the source needs). -/
def lowerStr (s : String) : String := String.map Char.toLower s

/-- Path predicate for the js/ts count: `f.endswith(('.js','.ts','.jsx','.tsx'))`. -/
def isJsPath (f : String) : Bool :=
  endsWithStr f ".js" || endsWithStr f ".ts" || endsWithStr f ".jsx" || endsWithStr f ".tsx"

/-- Path predicate for the python count: `f.endswith('.py')`. -/
def isPyPath (f : String) : Bool := endsWithStr f ".py"

/-- Path predicate for the markdown count: `f.endswith('.md')`. -/
def isMdPath (f : String) : Bool := endsWithStr f ".md"

/-- Path predicate for the test count: `'test' in f.lower() or 'spec' in f.lower()`. -/
def isTestPath (f : String) : Bool :=
  containsSubstring "test" (lowerStr f) || containsSubstring "spec" (lowerStr f)

/-- Path predicate for the config count:
`'config' in f.lower() or f.endswith('.json') or f.endswith('.toml') or f.endswith('.yaml')`. -/
def isConfigPath (f : String) : Bool :=
  containsSubstring "config" (lowerStr f) || endsWithStr f ".json" ||
    endsWithStr f ".toml" || endsWithStr f ".yaml"

/-- Path predicate for has_docker: `'dockerfile' in f.lower()`. -/
def isDockerPath (f : String) : Bool := containsSubstring "dockerfile" (lowerStr f)

/-- Path predicate for has_ci: `'.github/workflows' in f.lower() or '.gitlab-ci' in f.lower()`. -/
def isCiPath (f : String) : Bool :=
  containsSubstring ".github/workflows" (lowerStr f) ||
    containsSubstring ".gitlab-ci" (lowerStr f)

/-- The `features` dict built by `extract_features`: 11 numeric fields in the
Python dict's insertion order (the order `list(features.values())` yields). -/
structure FeatureVector where
  total_files : ℚ
  js_ts_files : ℚ
  py_files : ℚ
  md_files : ℚ
  test_files : ℚ
  config_files : ℚ
  has_docker : ℚ
  has_ci : ℚ
  max_depth : ℚ
  test_ratio : ℚ
  doc_ratio : ℚ

/-- Python's `list(features.values())`: the 11 fields in insertion order. -/
def FeatureVector.toList (v : FeatureVector) : List ℚ :=
  [v.total_files, v.js_ts_files, v.py_files, v.md_files, v.test_files,
    v.config_files, v.has_docker, v.has_ci, v.max_depth, v.test_ratio, v.doc_ratio]

namespace Index

/-- `extract_features` from src/api/index.py (lines 27-41), translated clause
by clause: counts are `sum(1 for f in file_tree if ...)`, the flags are
`1 if any(...) else 0`, max_depth is `max([len(f.split('/')) for f in file_tree] + [0])`,
and the two ratios divide by total_files when it is positive and are 0 otherwise. -/
def extract_features (file_tree : List String) : FeatureVector :=
  let total : ℚ := (file_tree.length : ℚ)
  let testf : ℚ := (file_tree.countP isTestPath : ℚ)
  let mdf : ℚ := (file_tree.countP isMdPath : ℚ)
  ⟨total,
    (file_tree.countP isJsPath : ℚ),
    (file_tree.countP isPyPath : ℚ),
    mdf,
    testf,
    (file_tree.countP isConfigPath : ℚ),
    if file_tree.any isDockerPath then 1 else 0,
    if file_tree.any isCiPath then 1 else 0,
    (file_tree.map (fun f => ((f.splitOn "/").length : ℚ))).foldr max 0,
    if 0 < total then testf / total else 0,
    if 0 < total then mdf / total else 0⟩

end Index

namespace MlModel

/-- `extract_features` from src/api/ml_model.py (lines 4-19); the source text
of this function is character-for-character the same as the copy in
src/api/index.py. -/
def extract_features (file_tree : List String) : FeatureVector :=
  let total : ℚ := (file_tree.length : ℚ)
  let testf : ℚ := (file_tree.countP isTestPath : ℚ)
  let mdf : ℚ := (file_tree.countP isMdPath : ℚ)
  ⟨total,
    (file_tree.countP isJsPath : ℚ),
    (file_tree.countP isPyPath : ℚ),
    mdf,
    testf,
    (file_tree.countP isConfigPath : ℚ),
    if file_tree.any isDockerPath then 1 else 0,
    if file_tree.any isCiPath then 1 else 0,
    (file_tree.map (fun f => ((f.splitOn "/").length : ℚ))).foldr max 0,
    if 0 < total then testf / total else 0,
    if 0 < total then mdf / total else 0⟩

end MlModel

/-- One sample's random draws in `generate_synthetic_data`.  The source draws
total_files from randint(10,500), test_ratio from uniform(0,0.4), doc_ratio
from uniform(0,0.2), has_ci and has_docker from choice([0,1]), js_frac from
uniform(0.1,0.8), config_files from randint(2,10) and max_depth from
randint(2,8); the draws are kept abstract here since no claim depends on the
ranges, only on how a drawn sample is turned into a row. -/
structure DrawParams where
  total_files : ℚ
  test_ratio : ℚ
  doc_ratio : ℚ
  has_ci : ℚ
  has_docker : ℚ
  js_frac : ℚ
  config_files : ℚ
  max_depth : ℚ

/-- `min(100, max(10, v))`: the clamp applied to each of the six component
labels before the overall mean is taken. -/
def clampScore (v : ℚ) : ℚ := min 100 (max 10 v)

/-- The seven label values of one synthetic sample, in the insertion order of
the `scores` dict (codeQuality, security, documentation, maintainability,
dependencies, testCoverage, then the appended overall mean of the six
already-clamped values). -/
def genScores (p : DrawParams) : List ℚ :=
  let code_quality := 40 + p.test_ratio * 100 + p.has_ci * 10 - p.max_depth * 2
  let security := 50 + p.has_docker * 10 + p.has_ci * 15
  let documentation := 30 + p.doc_ratio * 300
  let maintainability := 60 + p.test_ratio * 50 + p.doc_ratio * 100 - p.max_depth * 3
  let dependencies := 50 + p.config_files * 3
  let test_coverage := p.test_ratio * 250
  let cs := [clampScore code_quality, clampScore security, clampScore documentation,
    clampScore maintainability, clampScore dependencies, clampScore test_coverage]
  cs ++ [cs.sum / 6]

/-- The `features` dict assembled for one synthetic sample: the drawn ratios
are stored directly while md_files and test_files are `int(total_files * ratio)`
(truncation), py_files is fixed at 0 and js_ts_files is `int(total_files * uniform(0.1,0.8))`. -/
def genFeatures (p : DrawParams) : FeatureVector :=
  ⟨p.total_files,
    pyIntQ (p.total_files * p.js_frac),
    0,
    pyIntQ (p.total_files * p.doc_ratio),
    pyIntQ (p.total_files * p.test_ratio),
    p.config_files,
    p.has_docker,
    p.has_ci,
    p.max_depth,
    p.test_ratio,
    p.doc_ratio⟩

/-- One row of the synthetic dataset: `list(features.values()) + list(scores.values())`. -/
def sampleRow (p : DrawParams) : List ℚ := (genFeatures p).toList ++ genScores p

/-- `generate_synthetic_data`, parametrized by the list of random draws (one
`DrawParams` per requested sample; index.py requests 100 samples, ml_model.py
500, both with the same per-sample construction). -/
def generate_synthetic_data (draws : List DrawParams) : List (List ℚ) :=
  draws.map sampleRow

/-- The fitted state of a `StandardScaler`: per-column means and stds. -/
structure StandardScaler where
  means : List ℚ
  stds : List ℚ

/-- Per-column mean `sum(x[j] for x in X) / n_samples` computed by
`StandardScaler.fit_transform`. -/
def colMean (X : List (List ℚ)) (j : ℕ) : ℚ :=
  (X.map (fun x => x.getD j 0)).sum / (X.length : ℚ)

/-- Per-column population variance `sum((x[j] - means[j]) ** 2 for x in X) / n_samples`.
For the column indices `j < n_features` actually used, the stored `means[j]`
read by the source equals `colMean X j`. -/
def colVar (X : List (List ℚ)) (j : ℕ) : ℚ :=
  (X.map (fun x => (x.getD j 0 - colMean X j) ^ 2)).sum / (X.length : ℚ)

/-- Per-column std: `(variance ** 0.5) if variance > 0 else 1.0`, with `rt`
standing for the float square root. -/
def colStd (rt : ℚ → ℚ) (X : List (List ℚ)) (j : ℕ) : ℚ :=
  if 0 < colVar X j then rt (colVar X j) else 1

/-- The scaler state computed by `fit_transform` on a non-empty matrix:
means and stds are list comprehensions over `range(n_features)` with
`n_features = len(X[0])`. -/
def scalerOf (rt : ℚ → ℚ) (X : List (List ℚ)) : StandardScaler :=
  ⟨(List.range (X.getD 0 []).length).map (colMean X),
    (List.range (X.getD 0 []).length).map (colStd rt X)⟩

/-- One row of `StandardScaler.transform`: `[(x[j] - means[j]) / stds[j] for j in range(len(x))]`. -/
def transformRow (sc : StandardScaler) (x : List ℚ) : List ℚ :=
  (List.range x.length).map (fun j => (x.getD j 0 - sc.means.getD j 0) / sc.stds.getD j 0)

/-- `StandardScaler.transform`. -/
def transform (sc : StandardScaler) (X : List (List ℚ)) : List (List ℚ) :=
  X.map (transformRow sc)

/-- `StandardScaler.fit_transform`.  On an empty matrix the source evaluates
`len(X[0])`, so Python raises IndexError before any arithmetic happens; on a
non-empty matrix it stores means/stds and returns `self.transform(X)`. -/
def fit_transform (rt : ℚ → ℚ) (X : List (List ℚ)) :
    Except PyErr (StandardScaler × List (List ℚ)) :=
  match X with
  | [] => Except.error PyErr.indexError
  | _ :: _ => Except.ok (scalerOf rt X, transform (scalerOf rt X) X)

/-- State of a `PurePythonLinearRegressor`: learning rate, epoch count,
weight vector and bias. -/
structure PurePythonLinearRegressor where
  lr : ℚ
  epochs : ℕ
  weights : List ℚ
  bias : ℚ

/-- `pred = self.bias + sum(self.weights[j] * x[j] for j in range(len(x)))`. -/
def predictOne (w : List ℚ) (b : ℚ) (x : List ℚ) : ℚ :=
  b + ((List.range x.length).map (fun j => w.getD j 0 * x.getD j 0)).sum

/-- `PurePythonLinearRegressor.predict`: one prediction per row. -/
def predict (m : PurePythonLinearRegressor) (X : List (List ℚ)) : List ℚ :=
  X.map (predictOne m.weights m.bias)

/-- The body of one training epoch in `PurePythonLinearRegressor.fit`:
predictions over the whole set, the accumulated gradients
`db = Σ error` and `dw[j] = Σ error * X[i][j]` (the Python accumulation loop
over i is rendered as a per-index sum, which is the same value since rational
addition is associative and commutative), then the synchronous update
`weights[j] -= (lr/n) * dw[j]`, `bias -= (lr/n) * db`. -/
def epochStep (lr : ℚ) (X : List (List ℚ)) (y : List ℚ) (wb : List ℚ × ℚ) :
    List ℚ × ℚ :=
  let n := X.length
  let nf := (X.getD 0 []).length
  let preds := X.map (predictOne wb.1 wb.2)
  let errs := (List.range n).map (fun i => preds.getD i 0 - y.getD i 0)
  let dw := (List.range nf).map
    (fun j => ((List.range n).map (fun i => errs.getD i 0 * (X.getD i []).getD j 0)).sum)
  let db := errs.sum
  ((List.range nf).map (fun j => wb.1.getD j 0 - (lr / (n : ℚ)) * dw.getD j 0),
    wb.2 - (lr / (n : ℚ)) * db)

/-- The `for _ in range(self.epochs)` loop of `fit`, applied to the
(weights, bias) pair. -/
def fitEpochs (lr : ℚ) (X : List (List ℚ)) (y : List ℚ) :
    ℕ → List ℚ × ℚ → List ℚ × ℚ
  | 0, wb => wb
  | n + 1, wb => fitEpochs lr X y n (epochStep lr X y wb)

/-- `PurePythonLinearRegressor.fit`: resets weights to `[0.0] * n_features`
(the bias keeps its current value, 0.0 for a freshly constructed model) and
runs exactly `epochs` epoch steps. -/
def fit (m : PurePythonLinearRegressor) (X : List (List ℚ)) (y : List ℚ) :
    PurePythonLinearRegressor :=
  PurePythonLinearRegressor.mk m.lr m.epochs
    (fitEpochs m.lr X y m.epochs (List.replicate (X.getD 0 []).length 0, m.bias)).1
    (fitEpochs m.lr X y m.epochs (List.replicate (X.getD 0 []).length 0, m.bias)).2

/-- An `MLPipeline`: one scaler plus one regressor. -/
structure MLPipeline where
  scaler : StandardScaler
  model : PurePythonLinearRegressor

/-- `MLPipeline.predict`: `self.model.predict(self.scaler.transform(X))`. -/
def pipelinePredict (pl : MLPipeline) (X : List (List ℚ)) : List ℚ :=
  predict pl.model (transform pl.scaler X)

/-- `MLPipeline.fit`: `fit_transform` then `model.fit` on the scaled matrix.
A fresh pipeline's regressor starts with empty weights and bias 0; `lr` and
`ep` are the constructor defaults (0.1 and 50 in index.py, 0.1 and 500 in
ml_model.py).  An exception from `fit_transform` propagates. -/
def pipelineFit (rt : ℚ → ℚ) (lr : ℚ) (ep : ℕ) (X : List (List ℚ)) (y : List ℚ) :
    Except PyErr MLPipeline :=
  match fit_transform rt X with
  | Except.error e => Except.error e
  | Except.ok scXs => Except.ok ⟨scXs.1, fit ⟨lr, ep, [], 0⟩ scXs.2 y⟩

/-- The process-wide `models` dict, as an insertion-ordered association list. -/
abbrev Registry := List (String × MLPipeline)

/-- Python dict assignment `models[target] = model`: overwrite in place if the
key exists, otherwise append. -/
def regInsert (reg : Registry) (k : String) (m : MLPipeline) : Registry :=
  if reg.any (fun tm => tm.1 == k) then
    reg.map (fun tm => if tm.1 == k then (k, m) else tm)
  else reg ++ [(k, m)]

/-- `target_cols`, the seven target names in source order. -/
def target_cols : List String :=
  ["codeQuality", "security", "documentation", "maintainability",
    "dependencies", "testCoverage", "overall"]

/-- `y = [row[idx] for row in Y]`: the label column for one target. -/
def targetColumn (Y : List (List ℚ)) (idx : ℕ) : List ℚ :=
  Y.map (fun row => row.getD idx 0)

/-- The `for idx, target in enumerate(target_cols)` loop of `train_models`.
`models[target] = model` executes inside the loop, one target at a time, so
an exception thrown during the fit of a later target leaves the
already-inserted entries in the registry.  `orc idx = true` injects the
claim-C3 hypothesis of an unexpected exception (spec: TrainingFailure, e.g.
arithmetic overflow) inside the fit of target `idx`; with `orc` constantly
false this is exactly the source loop. -/
def trainLoop (rt : ℚ → ℚ) (lr : ℚ) (ep : ℕ) (X Y : List (List ℚ))
    (orc : ℕ → Bool) : List (ℕ × String) → Registry → Registry × Option PyErr
  | [], reg => (reg, none)
  | (idx, t) :: rest, reg =>
    if orc idx then (reg, some PyErr.trainingFailure)
    else
      match pipelineFit rt lr ep X (targetColumn Y idx) with
      | Except.error e => (reg, some e)
      | Except.ok m => trainLoop rt lr ep X Y orc rest (regInsert reg t m)

/-- `train_models`: generate the synthetic dataset, split each row into the
11 feature columns and 7 label columns, and train one pipeline per target.
Returns the registry state when the loop ends (normally or by exception) and
the exception, if any. -/
def train_models (rt : ℚ → ℚ) (lr : ℚ) (ep : ℕ) (draws : List DrawParams)
    (orc : ℕ → Bool) (reg : Registry) : Registry × Option PyErr :=
  let data := generate_synthetic_data draws
  let X := data.map (fun row => row.take 11)
  let Y := data.map (fun row => row.drop 11)
  trainLoop rt lr ep X Y orc target_cols.enum reg

/-- The prediction loop of `predict_scores`: for each registry entry,
`int(min(100, max(0, model.predict([list(features.values())])[0])))`. -/
def predictAll (reg : Registry) (v : FeatureVector) : List (String × ℤ) :=
  reg.map (fun tm =>
    (tm.1, pyInt (min 100 (max 0 ((pipelinePredict tm.2 [v.toList]).getD 0 0)))))

/-- `predict_scores`: `if not models: train_models()`, then extract features
and run the prediction loop over the registry entries.  Returns the result
(or the propagated training exception) together with the registry state after
the call. -/
def predict_scoresSt (rt : ℚ → ℚ) (lr : ℚ) (ep : ℕ) (draws : List DrawParams)
    (orc : ℕ → Bool) (reg : Registry) (file_tree : List String) :
    Except PyErr (List (String × ℤ)) × Registry :=
  if reg.isEmpty then
    let tr := train_models rt lr ep draws orc reg
    match tr.2 with
    | some e => (Except.error e, tr.1)
    | none => (Except.ok (predictAll tr.1 (Index.extract_features file_tree)), tr.1)
  else (Except.ok (predictAll reg (Index.extract_features file_tree)), reg)

/-!
Interleaving model for claim C5.  FastAPI serves `def` endpoints on a thread
pool, so two first requests can run `predict_scores` concurrently against the
shared `models` dict.  One thread's visible actions on the shared dict are:
the `if not models` emptiness check (pc 0), the seven one-per-loop-iteration
`models[target] = model` writes performed by `train_models` when the check saw
an empty dict (pc 1..7), and the final read of `models.items()` that builds
the prediction mapping (pc 8).  The trained pipeline values are irrelevant to
the claim and are supplied by an abstract `pipes` function.
-/

/-- One thread executing `predict_scores`: program counter, whether it entered
the training branch, and the list of registry keys its final read observed. -/
structure ThreadSt where
  pc : ℕ
  trained : Bool
  res : Option (List String)

/-- A thread that has not started yet. -/
def tInit : ThreadSt := ⟨0, false, none⟩

/-- One atomic step of a thread against the shared registry. -/
def stepT (pipes : ℕ → MLPipeline) (t : ThreadSt) (reg : Registry) :
    ThreadSt × Registry :=
  if t.pc = 0 then
    (if reg.isEmpty then ⟨1, true, t.res⟩ else ⟨8, t.trained, t.res⟩, reg)
  else if t.pc ≤ 7 then
    (⟨t.pc + 1, t.trained, t.res⟩,
      regInsert reg (target_cols.getD (t.pc - 1) "") (pipes (t.pc - 1)))
  else if t.pc = 8 then
    (⟨9, t.trained, some (reg.map Prod.fst)⟩, reg)
  else (t, reg)

/-- Run two threads A and B under a schedule (`true` = A steps next). -/
def runSched (pipes : ℕ → MLPipeline) :
    List Bool → ThreadSt × ThreadSt × Registry → ThreadSt × ThreadSt × Registry
  | [], s => s
  | b :: rest, s =>
    if b then
      let ar := stepT pipes s.1 s.2.2
      runSched pipes rest (ar.1, s.2.1, ar.2)
    else
      let br := stepT pipes s.2.1 s.2.2
      runSched pipes rest (s.1, br.1, br.2)

/-- The C5 claim as stated: under every interleaving of two first callers,
training executes at most in one caller, and any caller that completes its
read observes the fully populated registry (all 7 target names). -/
def c5ClaimStmt : Prop :=
  ∀ (pipes : ℕ → MLPipeline) (sched : List Bool),
    (¬((runSched pipes sched (tInit, tInit, [])).1.trained = true ∧
       (runSched pipes sched (tInit, tInit, [])).2.1.trained = true)) ∧
    (∀ r, (runSched pipes sched (tInit, tInit, [])).1.res = some r → r = target_cols) ∧
    (∀ r, (runSched pipes sched (tInit, tInit, [])).2.1.res = some r → r = target_cols)

/-- A throwaway pipeline value for concrete scenarios. -/
def pipe0 : MLPipeline := ⟨⟨[], []⟩, ⟨0, 0, [], 0⟩⟩

/-- The spec's FeatureVector ratio invariant, stated in the spec's words:
test_ratio = test_files/total_files (0 if total_files = 0), and doc_ratio
analogously with md_files. -/
def ratioInvariantSpec (v : FeatureVector) : Prop :=
  (v.test_ratio = if v.total_files = 0 then 0 else v.test_files / v.total_files) ∧
  (v.doc_ratio = if v.total_files = 0 then 0 else v.md_files / v.total_files)

/-- A concrete synthetic draw: total_files = 10, test_ratio = 0.35,
doc_ratio = 0.15, has_ci = 1, has_docker = 0, js fraction 0.5,
config_files = 2, max_depth = 3 (all inside the source's random ranges). -/
def dSample : DrawParams := ⟨10, 7/20, 3/20, 1, 0, 1/2, 2, 3⟩

/-- A small concrete regressor (lr 1/2, 3 epochs, stale weights and bias)
for exercising `fit`. -/
def c6m : PurePythonLinearRegressor := ⟨1/2, 3, [7], 4⟩

/-- A concrete 2-sample, 1-feature training matrix. -/
def c6X : List (List ℚ) := [[1], [2]]

/-- Concrete labels for `c6X`. -/
def c6y : List ℚ := [0, 1]

/-- A concrete (weights, bias) state. -/
def c6wb : List ℚ × ℚ := ([5], 1)

/-- A concrete 2x2 training matrix whose first column is constant. -/
def c7X : List (List ℚ) := [[2, 1], [2, 3]]

/-- A fully populated registry (one throwaway pipeline per target name). -/
def regFull : Registry := target_cols.map (fun t => (t, pipe0))

/-!  Helper lemmas.  -/

/-- A list built by mapping over `List.range` sums to the corresponding
finite sum. -/
lemma range_map_sum (f : ℕ → ℚ) (n : ℕ) :
    ((List.range n).map f).sum = ∑ i ∈ Finset.range n, f i := by
  induction n with
  | zero => simp
  | succ n ih => simp [List.range_succ, Finset.sum_range_succ, ih]

/-- Indexing a range-map below its length evaluates the function. -/
lemma range_map_getD {α : Type} (f : ℕ → α) (n j : ℕ) (d : α) (hj : j < n) :
    ((List.range n).map f).getD j d = f j := by
  rw [List.getD_eq_getElem?_getD, List.getElem?_map, List.getElem?_range hj]
  rfl

/-- Indexing a mapped list below its length evaluates the function at the
indexed element. -/
lemma getD_map_lt (f : List ℚ → ℚ) (l : List (List ℚ)) (i : ℕ) (h : i < l.length) :
    (l.map f).getD i 0 = f (l.getD i []) := by
  rw [List.getD_eq_getElem?_getD, List.getD_eq_getElem?_getD, List.getElem?_map,
    List.getElem?_eq_getElem h]
  rfl

/-- Indexing at or beyond the length yields the default. -/
lemma getD_ge {α : Type} (l : List α) (j : ℕ) (d : α) (h : l.length ≤ j) :
    l.getD j d = d := by
  rw [List.getD_eq_getElem?_getD, List.getElem?_eq_none h]
  rfl

/-- Summing a function that is constant on the list. -/
lemma sum_map_eq_mul (l : List (List ℚ)) (f : List ℚ → ℚ) (c : ℚ)
    (h : ∀ x ∈ l, f x = c) : (l.map f).sum = (l.length : ℚ) * c := by
  induction l with
  | nil => simp
  | cons a t ih =>
    simp only [List.map_cons, List.sum_cons, List.length_cons]
    rw [h a (by simp), ih (fun x hx => h x (by simp [hx]))]
    push_cast
    ring

/-- Truncation toward zero agrees with the floor on non-negative rationals. -/
lemma pyInt_eq_floor (q : ℚ) (h : 0 ≤ q) : pyInt q = ⌊q⌋ := by
  rw [Rat.floor_def, pyInt]
  exact Int.tdiv_eq_ediv (Rat.num_nonneg.mpr h) (by positivity)

/-- The clamp-then-truncate of `predict_scores` always lands in [0, 100]. -/
lemma pyInt_clamp (q : ℚ) :
    0 ≤ pyInt (min 100 (max 0 q)) ∧ pyInt (min 100 (max 0 q)) ≤ 100 := by
  have h0 : (0:ℚ) ≤ min 100 (max 0 q) := le_min (by norm_num) (le_max_left 0 q)
  have h100 : min 100 (max 0 q) ≤ 100 := min_le_left _ _
  rw [pyInt_eq_floor _ h0]
  refine ⟨Int.le_floor.mpr (by exact_mod_cast h0), ?_⟩
  have := Int.floor_mono h100
  rwa [show ⌊(100:ℚ)⌋ = 100 by norm_num] at this

/-- Every predicted score in the output mapping lies in [0, 100]. -/
lemma predictAll_bounds (reg : Registry) (v : FeatureVector) :
    ∀ pr ∈ predictAll reg v, 0 ≤ pr.2 ∧ pr.2 ≤ 100 := by
  intro pr hpr
  rcases List.mem_map.1 hpr with ⟨tm, _, rfl⟩
  exact pyInt_clamp _

/-- The output mapping of the prediction loop has exactly the registry's keys,
in registry order. -/
lemma predictAll_keys (reg : Registry) (v : FeatureVector) :
    (predictAll reg v).map Prod.fst = reg.map Prod.fst := by
  simp [predictAll]

/-- The extractor's output satisfies the spec's ratio invariant (helper shared
by the C2 and C8 developments). -/
lemma extract_ratioInvariant (P : List String) :
    ratioInvariantSpec (Index.extract_features P) := by
  rcases Nat.eq_zero_or_pos P.length with h0 | hpos
  · obtain rfl := List.length_eq_zero.mp h0
    exact ⟨rfl, rfl⟩
  · have hq : (0:ℚ) < ((P.length : ℕ) : ℚ) := by exact_mod_cast hpos
    constructor <;>
      simp only [ratioInvariantSpec, Index.extract_features] <;>
      rw [if_pos hq, if_neg (ne_of_gt hq)]

/-- C8: for every path sequence P (including the empty one), the test_ratio
field of `extract_features P` (in both source copies) equals the test-file
count divided by the total file count when the latter is positive and 0
otherwise, and likewise doc_ratio with the markdown count. -/
theorem extract_features_ratio_law (P : List String) :
    ((Index.extract_features P).test_ratio =
      if 0 < P.length then (P.countP isTestPath : ℚ) / (P.length : ℚ) else 0) ∧
    ((Index.extract_features P).doc_ratio =
      if 0 < P.length then (P.countP isMdPath : ℚ) / (P.length : ℚ) else 0) ∧
    ((MlModel.extract_features P).test_ratio =
      if 0 < P.length then (P.countP isTestPath : ℚ) / (P.length : ℚ) else 0) ∧
    ((MlModel.extract_features P).doc_ratio =
      if 0 < P.length then (P.countP isMdPath : ℚ) / (P.length : ℚ) else 0) := by
  rcases Nat.eq_zero_or_pos P.length with h0 | hpos
  · obtain rfl := List.length_eq_zero.mp h0
    exact ⟨rfl, rfl, rfl, rfl⟩
  · have hq : (0:ℚ) < ((P.length : ℕ) : ℚ) := by exact_mod_cast hpos
    refine ⟨?_, ?_, ?_, ?_⟩ <;>
      simp only [Index.extract_features, MlModel.extract_features] <;>
      rw [if_pos hq, if_pos hpos]

/-- C10: the two source copies of the feature extractor are extensionally
equal: on every list of path strings they produce the same feature vector
(same fields, same values, same `list(features.values())` order). -/
theorem extract_features_copies_eq :
    ∀ file_tree : List String,
      Index.extract_features file_tree = MlModel.extract_features file_tree :=
  fun _ => rfl

/-- C2 counterexample: the synthetic-data generator assembles a FeatureVector
that violates the ratio invariant.  For the draw `dSample` (total_files = 10,
test_ratio = 0.35) the stored test_files field is int(10 * 0.35) = 3, so
test_files/total_files = 3/10 while the stored test_ratio field is 7/20. -/
theorem generator_ratio_counterexample : ¬ ratioInvariantSpec (genFeatures dSample) := by
  intro h
  have h1 := h.1
  simp only [ratioInvariantSpec, genFeatures, dSample, pyIntQ] at h1
  rw [if_neg (by norm_num)] at h1
  rw [show pyInt (10 * (7/20)) = 3 by
        rw [show (10 * (7/20) : ℚ) = 7/2 by norm_num, pyInt_eq_floor _ (by norm_num)]
        norm_num] at h1
  norm_num at h1

/-- C2 amended: every FeatureVector produced by `extract_features` (either
copy) satisfies the ratio invariant; a generator-assembled FeatureVector
instead stores the drawn ratios verbatim while its test_files and md_files
fields are the truncated products int(total_files * ratio), so its stored
ratio need not equal count/total. -/
theorem ratio_invariant_amended :
    (∀ P : List String, ratioInvariantSpec (Index.extract_features P) ∧
      ratioInvariantSpec (MlModel.extract_features P)) ∧
    (∀ p : DrawParams,
      (genFeatures p).test_ratio = p.test_ratio ∧
      (genFeatures p).doc_ratio = p.doc_ratio ∧
      (genFeatures p).test_files = pyIntQ (p.total_files * p.test_ratio) ∧
      (genFeatures p).md_files = pyIntQ (p.total_files * p.doc_ratio)) :=
  ⟨fun P => ⟨extract_ratioInvariant P, extract_ratioInvariant P⟩,
    fun _ => ⟨rfl, rfl, rfl, rfl⟩⟩

/-- C4 counterexample: `fit_transform` on the empty matrix fails with the
(modelled) IndexError that Python raises for `X[0]`, which is not the spec's
InvalidInput error — no InvalidInput error type exists in the source at all. -/
theorem standardizer_empty_counterexample :
    fit_transform (fun v : ℚ => v) [] = Except.error PyErr.indexError ∧
    (Except.error PyErr.indexError : Except PyErr (StandardScaler × List (List ℚ))) ≠
      Except.error PyErr.invalidInput := by
  refine ⟨rfl, ?_⟩
  intro h
  injection h with h2
  exact PyErr.noConfusion h2

/-- C4 amended: fitting the Standardizer on an empty matrix always fails —
with the IndexError Python raises when the source evaluates `len(X[0])` —
rather than silently dividing by zero; the failure is not a dedicated
InvalidInput error because the code defines no such error type. -/
theorem fit_transform_empty_index_error (rt : ℚ → ℚ) :
    fit_transform rt [] = Except.error PyErr.indexError := rfl

/-- C6: on a non-empty training set, `fit` runs exactly the configured number
of epoch steps starting from zero weights (no convergence check or early
stopping), and one epoch step updates each weight j by
`weight[j] - (lr/N) * Σ_i error_i * X[i][j]` and the bias by
`bias - (lr/N) * Σ_i error_i`, where `error_i` is the prediction on training
row i under the pre-update state minus the label. -/
theorem gradient_descent_epoch_semantics (m : PurePythonLinearRegressor)
    (X : List (List ℚ)) (y : List ℚ) (wb : List ℚ × ℚ) (j : ℕ)
    (hX : X ≠ []) (hj : j < (X.getD 0 []).length) :
    fit m X y = PurePythonLinearRegressor.mk m.lr m.epochs
      (fitEpochs m.lr X y m.epochs (List.replicate (X.getD 0 []).length 0, m.bias)).1
      (fitEpochs m.lr X y m.epochs (List.replicate (X.getD 0 []).length 0, m.bias)).2 ∧
    (∀ (n : ℕ) (wb0 : List ℚ × ℚ),
      fitEpochs m.lr X y n wb0 = (epochStep m.lr X y)^[n] wb0) ∧
    (epochStep m.lr X y wb).1.getD j 0 =
      wb.1.getD j 0 - (m.lr / (X.length : ℚ)) *
        ∑ i ∈ Finset.range X.length,
          (predictOne wb.1 wb.2 (X.getD i []) - y.getD i 0) * (X.getD i []).getD j 0 ∧
    (epochStep m.lr X y wb).2 =
      wb.2 - (m.lr / (X.length : ℚ)) *
        ∑ i ∈ Finset.range X.length,
          (predictOne wb.1 wb.2 (X.getD i []) - y.getD i 0) := by
  refine ⟨rfl, ?_, ?_, ?_⟩
  · intro n
    induction n with
    | zero => intro wb0; rfl
    | succ n ih =>
      intro wb0
      rw [show fitEpochs m.lr X y (n + 1) wb0 =
          fitEpochs m.lr X y n (epochStep m.lr X y wb0) from rfl,
        ih, Function.iterate_succ_apply]
  · simp only [epochStep]
    rw [range_map_getD _ _ _ _ hj, range_map_getD _ _ _ _ hj, range_map_sum]
    congr 2
    apply Finset.sum_congr rfl
    intro i hi
    have hi' := Finset.mem_range.1 hi
    rw [range_map_getD _ X.length i 0 hi', getD_map_lt (predictOne wb.1 wb.2) X i hi']
  · simp only [epochStep]
    rw [range_map_sum]
    congr 2
    apply Finset.sum_congr rfl
    intro i hi
    have hi' := Finset.mem_range.1 hi
    rw [getD_map_lt (predictOne wb.1 wb.2) X i hi']

/-- C6 witness: the epoch-semantics theorem applied at the concrete regressor
`c6m`, training set `c6X`/`c6y`, state `c6wb` and weight index 0. -/
theorem gradient_descent_epoch_semantics_witness :
    c6X ≠ [] ∧ 0 < (c6X.getD 0 []).length ∧
    (fit c6m c6X c6y = PurePythonLinearRegressor.mk c6m.lr c6m.epochs
      (fitEpochs c6m.lr c6X c6y c6m.epochs
        (List.replicate (c6X.getD 0 []).length 0, c6m.bias)).1
      (fitEpochs c6m.lr c6X c6y c6m.epochs
        (List.replicate (c6X.getD 0 []).length 0, c6m.bias)).2 ∧
    (∀ (n : ℕ) (wb0 : List ℚ × ℚ),
      fitEpochs c6m.lr c6X c6y n wb0 = (epochStep c6m.lr c6X c6y)^[n] wb0) ∧
    (epochStep c6m.lr c6X c6y c6wb).1.getD 0 0 =
      c6wb.1.getD 0 0 - (c6m.lr / (c6X.length : ℚ)) *
        ∑ i ∈ Finset.range c6X.length,
          (predictOne c6wb.1 c6wb.2 (c6X.getD i []) - c6y.getD i 0) *
            (c6X.getD i []).getD 0 0 ∧
    (epochStep c6m.lr c6X c6y c6wb).2 =
      c6wb.2 - (c6m.lr / (c6X.length : ℚ)) *
        ∑ i ∈ Finset.range c6X.length,
          (predictOne c6wb.1 c6wb.2 (c6X.getD i []) - c6y.getD i 0)) :=
  ⟨by decide, by decide,
    gradient_descent_epoch_semantics c6m c6X c6y c6wb 0 (by decide) (by decide)⟩

/-- C7: on a non-empty training matrix, no std stored by `fit_transform` is
exactly 0 (a zero-variance column gets std 1.0), and for a column that is
constant across all training rows, transforming any row with that constant
value yields 0 in that column. -/
theorem standardizer_zero_variance_safe (rt : ℚ → ℚ) (X : List (List ℚ))
    (hrt : ∀ v : ℚ, 0 < v → 0 < rt v) (hX : X ≠ []) :
    fit_transform rt X = Except.ok (scalerOf rt X, transform (scalerOf rt X) X) ∧
    (∀ s ∈ (scalerOf rt X).stds, s ≠ 0) ∧
    (∀ (j : ℕ) (c : ℚ), j < (X.getD 0 []).length → (∀ r ∈ X, r.getD j 0 = c) →
      (scalerOf rt X).stds.getD j 0 = 1 ∧
      ∀ x : List ℚ, x.getD j 0 = c → (transformRow (scalerOf rt X) x).getD j 0 = 0) := by
  have hn : ((X.length : ℕ) : ℚ) ≠ 0 :=
    Nat.cast_ne_zero.mpr (Nat.pos_iff_ne_zero.mp (List.length_pos.mpr hX))
  refine ⟨?_, ?_, ?_⟩
  · cases X with
    | nil => exact absurd rfl hX
    | cons a t => rfl
  · intro s hs
    rcases List.mem_map.1 hs with ⟨j', _, rfl⟩
    unfold colStd
    by_cases hv : 0 < colVar X j'
    · rw [if_pos hv]; exact ne_of_gt (hrt _ hv)
    · rw [if_neg hv]; exact one_ne_zero
  · intro j c hj hconst
    have hmean : colMean X j = c := by
      rw [colMean, sum_map_eq_mul X _ c hconst, mul_comm, mul_div_assoc,
        div_self hn, mul_one]
    have hvar : colVar X j = 0 := by
      rw [colVar, sum_map_eq_mul X _ 0 (fun x hx => by rw [hconst x hx, hmean]; ring)]
      simp
    have hstd1 : colStd rt X j = 1 := by
      unfold colStd
      rw [hvar]
      norm_num
    have hstdD : (scalerOf rt X).stds.getD j 0 = 1 := by
      rw [show (scalerOf rt X).stds =
          (List.range (X.getD 0 []).length).map (colStd rt X) from rfl,
        range_map_getD _ _ _ _ hj, hstd1]
    have hmeanD : (scalerOf rt X).means.getD j 0 = c := by
      rw [show (scalerOf rt X).means =
          (List.range (X.getD 0 []).length).map (colMean X) from rfl,
        range_map_getD _ _ _ _ hj, hmean]
    refine ⟨hstdD, ?_⟩
    intro x hx
    rcases Nat.lt_or_ge j x.length with hlt | hge
    · rw [transformRow, range_map_getD _ _ _ _ hlt, hx, hmeanD, hstdD]
      simp
    · rw [transformRow]
      exact getD_ge _ _ _ (by simpa using hge)

/-- C7 witness: the zero-variance-safety theorem applied at the identity
square root and the concrete matrix `c7X`, whose first column is the constant 2. -/
theorem standardizer_zero_variance_safe_witness :
    (∀ v : ℚ, 0 < v → 0 < (fun v : ℚ => v) v) ∧ c7X ≠ [] ∧
    (fit_transform (fun v : ℚ => v) c7X =
      Except.ok (scalerOf (fun v : ℚ => v) c7X,
        transform (scalerOf (fun v : ℚ => v) c7X) c7X) ∧
    (∀ s ∈ (scalerOf (fun v : ℚ => v) c7X).stds, s ≠ 0) ∧
    (∀ (j : ℕ) (c : ℚ), j < (c7X.getD 0 []).length → (∀ r ∈ c7X, r.getD j 0 = c) →
      (scalerOf (fun v : ℚ => v) c7X).stds.getD j 0 = 1 ∧
      ∀ x : List ℚ, x.getD j 0 = c →
        (transformRow (scalerOf (fun v : ℚ => v) c7X) x).getD j 0 = 0)) :=
  ⟨fun _ hv => hv, by decide,
    standardizer_zero_variance_safe (fun v : ℚ => v) c7X (fun _ hv => hv) (by decide)⟩

/-- C1: a first call to `predict_scores` with any non-empty list of draws
trains the registry and returns a mapping whose keys are exactly the 7 target
names in source order, each mapped to an integer in [0, 100]; the same
mapping shape holds for every later call against the trained registry since
`predictAll` maps over the registry entries. -/
theorem predict_scores_all_targets (rt : ℚ → ℚ) (lr : ℚ) (ep : ℕ)
    (draws : List DrawParams) (paths : List String) (hd : draws ≠ []) :
    predict_scoresSt rt lr ep draws (fun _ => false) [] paths =
      (Except.ok (predictAll (train_models rt lr ep draws (fun _ => false) []).1
        (Index.extract_features paths)),
       (train_models rt lr ep draws (fun _ => false) []).1) ∧
    (predictAll (train_models rt lr ep draws (fun _ => false) []).1
      (Index.extract_features paths)).map Prod.fst = target_cols ∧
    ∀ pr ∈ predictAll (train_models rt lr ep draws (fun _ => false) []).1
      (Index.extract_features paths), 0 ≤ pr.2 ∧ pr.2 ≤ 100 := by
  obtain ⟨d, ds, rfl⟩ := List.exists_cons_of_ne_nil hd
  exact ⟨rfl, rfl, predictAll_bounds _ _⟩

/-- C1 witness: the all-targets theorem at the identity square root,
lr = 1/10, 1 epoch, the single draw `dSample` and the empty path list. -/
theorem predict_scores_all_targets_witness :
    [dSample] ≠ [] ∧
    (predict_scoresSt (fun v : ℚ => v) (1/10) 1 [dSample] (fun _ => false) [] [] =
      (Except.ok (predictAll
        (train_models (fun v : ℚ => v) (1/10) 1 [dSample] (fun _ => false) []).1
        (Index.extract_features [])),
       (train_models (fun v : ℚ => v) (1/10) 1 [dSample] (fun _ => false) []).1) ∧
    (predictAll (train_models (fun v : ℚ => v) (1/10) 1 [dSample] (fun _ => false) []).1
      (Index.extract_features [])).map Prod.fst = target_cols ∧
    ∀ pr ∈ predictAll
        (train_models (fun v : ℚ => v) (1/10) 1 [dSample] (fun _ => false) []).1
        (Index.extract_features []), 0 ≤ pr.2 ∧ pr.2 ≤ 100) :=
  ⟨List.cons_ne_nil _ _,
    predict_scores_all_targets (fun v : ℚ => v) (1/10) 1 [dSample] []
      (List.cons_ne_nil _ _)⟩

/-- C3 counterexample: inject an exception into the fit of the third target
(index 2).  Training fails with the modelled TrainingFailure, yet the
registry is NOT empty afterwards — it retains the two already-trained
entries codeQuality and security, because `models[target] = model` executes
inside the training loop, one target at a time. -/
theorem train_failure_counterexample :
    (train_models (fun v : ℚ => v) (1/10) 1 [dSample] (fun i => decide (i = 2)) []).2 =
      some PyErr.trainingFailure ∧
    (train_models (fun v : ℚ => v) (1/10) 1 [dSample]
      (fun i => decide (i = 2)) []).1.map Prod.fst = ["codeQuality", "security"] ∧
    (["codeQuality", "security"] : List String) ≠ [] :=
  ⟨rfl, rfl, by decide⟩

/-- C3 amended: if training raises during the fit of the target at index
k (after k successful fits), the registry retains exactly the first k
target entries rather than remaining empty; for k ≥ 1 the next
`predict_scores` call sees a non-empty registry, does NOT re-attempt
training (regardless of its own training parameters), and serves a partial
mapping with only those k score names. -/
theorem train_failure_partial_registry (rt rt2 : ℚ → ℚ) (lr lr2 : ℚ) (ep ep2 : ℕ)
    (draws draws2 : List DrawParams) (orc2 : ℕ → Bool) (paths : List String) (k : ℕ)
    (hd : draws ≠ []) (hk : k < 7) :
    (train_models rt lr ep draws (fun i => decide (i = k)) []).2 =
      some PyErr.trainingFailure ∧
    (train_models rt lr ep draws (fun i => decide (i = k)) []).1.map Prod.fst =
      target_cols.take k ∧
    (1 ≤ k →
      predict_scoresSt rt2 lr2 ep2 draws2 orc2
          (train_models rt lr ep draws (fun i => decide (i = k)) []).1 paths =
        (Except.ok (predictAll (train_models rt lr ep draws (fun i => decide (i = k)) []).1
          (Index.extract_features paths)),
         (train_models rt lr ep draws (fun i => decide (i = k)) []).1) ∧
      (predictAll (train_models rt lr ep draws (fun i => decide (i = k)) []).1
        (Index.extract_features paths)).map Prod.fst = target_cols.take k) := by
  obtain ⟨d, ds, rfl⟩ := List.exists_cons_of_ne_nil hd
  interval_cases k
  · exact ⟨rfl, rfl, fun h => absurd h (by decide)⟩
  · exact ⟨rfl, rfl, fun _ => ⟨rfl, rfl⟩⟩
  · exact ⟨rfl, rfl, fun _ => ⟨rfl, rfl⟩⟩
  · exact ⟨rfl, rfl, fun _ => ⟨rfl, rfl⟩⟩
  · exact ⟨rfl, rfl, fun _ => ⟨rfl, rfl⟩⟩
  · exact ⟨rfl, rfl, fun _ => ⟨rfl, rfl⟩⟩
  · exact ⟨rfl, rfl, fun _ => ⟨rfl, rfl⟩⟩

/-- C3 amended witness: the partial-registry theorem at k = 2, the single
draw `dSample` and the empty path list. -/
theorem train_failure_partial_registry_witness :
    [dSample] ≠ [] ∧ (2 : ℕ) < 7 ∧
    ((train_models (fun v : ℚ => v) (1/10) 1 [dSample] (fun i => decide (i = 2)) []).2 =
      some PyErr.trainingFailure ∧
    (train_models (fun v : ℚ => v) (1/10) 1 [dSample]
      (fun i => decide (i = 2)) []).1.map Prod.fst = target_cols.take 2 ∧
    (1 ≤ 2 →
      predict_scoresSt (fun v : ℚ => v) (1/10) 1 [dSample] (fun _ => false)
          (train_models (fun v : ℚ => v) (1/10) 1 [dSample]
            (fun i => decide (i = 2)) []).1 [] =
        (Except.ok (predictAll (train_models (fun v : ℚ => v) (1/10) 1 [dSample]
            (fun i => decide (i = 2)) []).1 (Index.extract_features [])),
         (train_models (fun v : ℚ => v) (1/10) 1 [dSample]
           (fun i => decide (i = 2)) []).1) ∧
      (predictAll (train_models (fun v : ℚ => v) (1/10) 1 [dSample]
          (fun i => decide (i = 2)) []).1
        (Index.extract_features [])).map Prod.fst = target_cols.take 2)) :=
  ⟨List.cons_ne_nil _ _, by decide,
    train_failure_partial_registry (fun v : ℚ => v) (fun v : ℚ => v) (1/10) (1/10)
      1 1 [dSample] [dSample] (fun _ => false) [] 2 (List.cons_ne_nil _ _) (by decide)⟩

/-- C9: once the registry is non-empty (training has completed), a
`predict_scores` call does not retrain, does not modify the registry, and a
second call with the same path list — under any training parameters — returns
the identical mapping: inference is a pure function of the stored scaler
statistics and trained weights. -/
theorem predict_scores_idempotent (rt rt2 : ℚ → ℚ) (lr lr2 : ℚ) (ep ep2 : ℕ)
    (draws draws2 : List DrawParams) (orc orc2 : ℕ → Bool) (reg : Registry)
    (paths : List String) (hreg : reg ≠ []) :
    predict_scoresSt rt lr ep draws orc reg paths =
      (Except.ok (predictAll reg (Index.extract_features paths)), reg) ∧
    predict_scoresSt rt2 lr2 ep2 draws2 orc2
        (predict_scoresSt rt lr ep draws orc reg paths).2 paths =
      predict_scoresSt rt lr ep draws orc reg paths := by
  obtain ⟨a, t, rfl⟩ := List.exists_cons_of_ne_nil hreg
  exact ⟨rfl, rfl⟩

/-- C9 witness: the idempotence theorem at the fully populated registry
`regFull` and the empty path list. -/
theorem predict_scores_idempotent_witness :
    regFull ≠ [] ∧
    (predict_scoresSt (fun v : ℚ => v) (1/10) 50 [dSample] (fun _ => false) regFull [] =
      (Except.ok (predictAll regFull (Index.extract_features [])), regFull) ∧
    predict_scoresSt (fun v : ℚ => v) (1/10) 50 [dSample] (fun _ => false)
        (predict_scoresSt (fun v : ℚ => v) (1/10) 50 [dSample]
          (fun _ => false) regFull []).2 [] =
      predict_scoresSt (fun v : ℚ => v) (1/10) 50 [dSample] (fun _ => false) regFull []) :=
  ⟨by simp [regFull, target_cols],
    predict_scores_idempotent (fun v : ℚ => v) (fun v : ℚ => v) (1/10) (1/10) 50 50
      [dSample] [dSample] (fun _ => false) (fun _ => false) regFull []
      (by simp [regFull, target_cols])⟩

/-- C5 counterexample: the lazy-training transition is not guarded.  Under
the schedule where caller A passes the emptiness check and performs three of
its seven registry inserts before caller B runs, B's emptiness check sees a
non-empty registry, B skips training, and B's read observes only the three
keys codeQuality, security, documentation — a partially populated registry is
visible, refuting the claim. -/
theorem lazy_training_race_counterexample : ¬ c5ClaimStmt := by
  intro h
  have hB := (h (fun _ => pipe0) [true, true, true, true, false, false]).2.2
    ["codeQuality", "security", "documentation"] rfl
  exact absurd hB (by decide)

/-- C5 amended: with no mutual exclusion around `if not models: train_models()`,
there is an interleaving of two first callers in which one caller observes a
partially populated registry (3 of the 7 targets) and returns fewer than 7
scores, and another interleaving in which both callers pass the emptiness
check and both execute training. -/
theorem lazy_training_unguarded (pipes : ℕ → MLPipeline) :
    (∃ (sched : List Bool) (r : List String),
      (runSched pipes sched (tInit, tInit, [])).2.1.res = some r ∧ r.length < 7) ∧
    (∃ sched : List Bool,
      (runSched pipes sched (tInit, tInit, [])).1.trained = true ∧
      (runSched pipes sched (tInit, tInit, [])).2.1.trained = true) :=
  ⟨⟨[true, true, true, true, false, false],
      ["codeQuality", "security", "documentation"], rfl, by decide⟩,
    ⟨[true, false], rfl, rfl⟩⟩

end RepoPilot

